import Mathlib

/-!
Verification of the NurOS `apginstall` package installer core
(`src/installer.py`) against its natural-language specification.

The Python source is shallowly embedded: every class/method of
`installer.py` that the claims touch becomes an executable Lean
definition with the same name.  Filesystem trees are association lists
from relative path to file content, Qt signal emissions become an
explicit event list, the Python `logging` module becomes a separate
string list, and raised exceptions become `Option PyError` / `Except
PyError` results.
-/

set_option maxHeartbeats 1000000

namespace ApgInstall

/-- Exception hierarchy of `installer.py` (lines 25-35) plus the built-in
`ValueError` that `str.split` unpacking can raise in `Package.extract`
and the `OSError` family that filesystem calls can raise.
`dependencyError` mirrors the declared-but-never-raised
`DependencyError` class. -/
inductive PyError where
  | validationError (msg : String)
  | packageError (msg : String)
  | dependencyError (msg : String)
  | valueError (msg : String)
  | ioError (msg : String)
deriving DecidableEq, Repr

/-- `str(e)` for each modelled exception: the carried message. -/
def PyError.msg : PyError → String
  | .validationError m => m
  | .packageError m => m
  | .dependencyError m => m
  | .valueError m => m
  | .ioError m => m

/-- The caller-facing event surface: the four Qt signals of `Installer`
(`progress_updated`, `log_message`, `installation_completed`,
`installation_failed`), in emission order. -/
inductive Event where
  | progress (pct : Nat)
  | log (msg : String)
  | completed
  | failed (detail : String)
deriving DecidableEq, Repr

/-- `installation_completed` / `installation_failed` are the batch-level
signals; `progress` / `log` are per-step emissions. -/
def Event.isSignal : Event → Bool
  | .completed => true
  | .failed _ => true
  | _ => false

/-- A file tree (workspace, `data/` payload, target system root):
association list from relative path to file content.  Mirrors a Python
filesystem directory and also `dict` objects (first binding wins on
lookup, as Python dicts hold unique keys). -/
abbrev FileMap := List (String × String)

/-- An environment mapping (`os.environ`, script environments). -/
abbrev Env := List (String × String)

/-- `d[k]` lookup: first binding of `k`. -/
def lookupAssoc (k : String) : List (String × String) → Option String
  | [] => none
  | (k', v) :: rest => if k' = k then some v else lookupAssoc k rest

/-- `d[k] = v` on a Python dict: replace the existing binding of `k` in
place, else append a new one. -/
def insertAssoc (k v : String) : List (String × String) → List (String × String)
  | [] => [(k, v)]
  | (k', v') :: rest =>
    if k' = k then (k, v) :: rest else (k', v') :: insertAssoc k v rest

/-- One declared dependency from `metadata.json`:
`{name, version, condition}` where `condition` is optional
(`dep.get('condition', '>=')`). -/
structure Dependency where
  name : String
  version : String
  condition : Option String
deriving DecidableEq, Repr

/-- Parsed `metadata.json`: at least `name` and `version`, optional
`dependencies` list (`'dependencies' in package.metadata`). -/
structure Metadata where
  name : String
  version : String
  dependencies : Option (List Dependency)
deriving DecidableEq, Repr

/-- Exit status and captured standard error of one lifecycle-script
process (`subprocess.run(..., capture_output=True)`). -/
structure ScriptResult where
  returncode : Nat
  stderr : String
deriving DecidableEq, Repr

/-- Static content of one `.apg` archive: everything `install_package`
can observe about it.  `pathName` stands for `package_path` (the claims
never distinguish the full path from `package_path.name`, so both are
modelled by this one string).  `files` is the extracted workspace tree,
`dataFiles` the `data/` payload subtree (`none` = no `data/` directory),
`preinstall`/`postinstall` the lifecycle scripts (`none` = script file
absent).  `deployFault` injects a nondeterministic `OSError` raised by
`shutil.copy2` during deployment (`none` = deployment I/O succeeds);
partially-applied copies are not modelled because no claim reads the
target root after an I/O fault. -/
structure Archive where
  pathName : String
  metadata : Option Metadata
  md5sumsLines : Option (List String)
  files : FileMap
  dataFiles : Option FileMap
  preinstall : Option ScriptResult
  postinstall : Option ScriptResult
  deployFault : Option String
deriving DecidableEq, Repr

/-- The temporary workspace directory: its `mkdtemp` name and whether it
currently exists on disk. -/
structure TempDir where
  name : String
  onDisk : Bool
deriving DecidableEq, Repr

/-- The `Package` object (lines 37-76): source path, workspace,
parsed metadata (`none` = the initial empty dict) and the parsed
checksum manifest. -/
structure Package where
  path : String
  temp_dir : Option TempDir
  metadata : Option Metadata
  md5sums : List (String × String)
deriving DecidableEq, Repr

/-- `Package.__init__` (lines 39-43). -/
def initPkg (arch : Archive) : Package :=
  { path := arch.pathName, temp_dir := none, metadata := none, md5sums := [] }

/-- `Package.__str__` (lines 75-76):
`f"{metadata.get('name', 'Unknown')} {metadata.get('version', 'Unknown')}"`. -/
def Package.toStr (p : Package) : String :=
  (match p.metadata with | some m => m.name | none => "Unknown") ++ " " ++
    (match p.metadata with | some m => m.version | none => "Unknown")

/-- `Package.cleanup` (lines 70-73):
`if self.temp_dir and self.temp_dir.exists(): shutil.rmtree(self.temp_dir)`. -/
def Package.cleanup (p : Package) : Package :=
  match p.temp_dir with
  | some d => if d.onDisk then { p with temp_dir := some { d with onDisk := false } } else p
  | none => p

/-- Python `str.strip()` whitespace test (the characters relevant to the
manifest lines). -/
def isPyWs (c : Char) : Bool :=
  c = ' ' || c = '\t' || c = '\n' || c = '\r' || c = '\x0b' || c = '\x0c'

/-- Python `line.strip()`. -/
def pyStrip (s : String) : String :=
  ⟨((s.data.dropWhile isPyWs).reverse.dropWhile isPyWs).reverse⟩

/-- First occurrence of the two-space separator: splits `s` around the
first `"  "` substring, `none` when there is no occurrence. -/
def splitTwoSpace : List Char → Option (List Char × List Char)
  | ' ' :: ' ' :: rest => some ([], rest)
  | c :: rest =>
    match splitTwoSpace rest with
    | some (pre, post) => some (c :: pre, post)
    | none => none
  | [] => none

/-- `line.strip().split("  ", 1)` unpacked into `(hashsum, path)`:
`none` models the `ValueError` raised when the stripped line has no
two-space separator (fewer than 2 fields to unpack). -/
def splitHashPath (line : String) : Option (String × String) :=
  match splitTwoSpace (pyStrip line).data with
  | some (pre, post) => some (⟨pre⟩, ⟨post⟩)
  | none => none

/-- The `md5sums` loading loop of `Package.extract` (lines 63-66):
`for line in f: hashsum, path = line.strip().split("  ", 1);
self.md5sums[path] = hashsum`.  Returns the mutated package and the
raised exception, if any (bindings made before a bad line are kept, as
in Python). -/
def loadMd5 : List String → Package → Package × Option PyError
  | [], p => (p, none)
  | line :: rest, p =>
    match splitHashPath line with
    | none => (p, some (.valueError "not enough values to unpack (expected 2, got 1)"))
    | some (hashsum, path) =>
      loadMd5 rest { p with md5sums := insertAssoc path hashsum p.md5sums }

/-- `Package.extract` (lines 45-68): create the workspace
(`tempfile.mkdtemp(prefix="apginstall-")`, name collapsed to one fixed
fresh string), unpack the archive into it, require `metadata.json`,
then load `md5sums` when present.  Returns the mutated package plus
either the workspace (the method's return value) or the raised
exception. -/
def Package.extract (arch : Archive) (p : Package) : Package × Except PyError TempDir :=
  let ws : TempDir := { name := "apginstall-tmp", onDisk := true }
  let p1 := { p with temp_dir := some ws }
  match arch.metadata with
  | none => (p1, .error (.validationError "metadata.json not found in package"))
  | some m =>
    let p2 := { p1 with metadata := some m }
    match arch.md5sumsLines with
    | none => (p2, .ok ws)
    | some lines =>
      let r := loadMd5 lines p2
      (r.1, match r.2 with | some e => .error e | none => .ok ws)

/-- The per-entry loop of `Installer.verify_checksums` (lines 103-111):
first missing file or hash mismatch raises `ValidationError`. -/
def verifyLoop (md5 : String → String) (files : FileMap) :
    List (String × String) → Option PyError
  | [] => none
  | entry :: rest =>
    match lookupAssoc entry.1 files with
    | none => some (.validationError ("File not found: " ++ entry.1))
    | some content =>
      if md5 content ≠ entry.2 then
        some (.validationError ("Checksum mismatch for " ++ entry.1))
      else verifyLoop md5 files rest

/-- `Installer.verify_checksums` (lines 96-113): trivially true on an
empty manifest, otherwise one log line then the entry loop.  The hash
function is a parameter (`hashlib.md5(...).hexdigest()`).  Returns the
emitted events and the raised exception, if any. -/
def verify_checksums (md5 : String → String) (arch : Archive) (p : Package) :
    List Event × Option PyError :=
  if p.md5sums = [] then ([], none)
  else ([Event.log "Verifying package checksums..."], verifyLoop md5 arch.files p.md5sums)

/-- `Installer.verify_dependencies` (lines 115-131): never fails, logs
each declared dependency.  Returns the emitted events. -/
def verify_dependencies (p : Package) : List Event :=
  match p.metadata with
  | none => []
  | some m =>
    match m.dependencies with
    | none => []
    | some deps =>
      ("Checking dependencies..." ::
        deps.map (fun dep =>
          "Required: " ++ (dep.name ++ (" " ++ ((dep.condition.getD ">=") ++ (" " ++ dep.version)))))).map
        Event.log

/-- One created backup archive: its file name in the backup directory
and its contents (path relative to `data/`, pre-overwrite live file
content). -/
structure Backup where
  name : String
  contents : FileMap
deriving DecidableEq, Repr

/-- The `rglob` loop of `Installer.create_backup` (lines 143-147): for
each payload file, if the same relative path already exists under the
system root, add the live file to the archive. -/
def backupContents (root : FileMap) : FileMap → FileMap
  | [] => []
  | entry :: rest =>
    match lookupAssoc entry.1 root with
    | some live => (entry.1, live) :: backupContents root rest
    | none => backupContents root rest

/-- `Installer.create_backup` (lines 133-147): the archive
`{package.metadata['name']}_{timestamp}.tar.xz` is always opened (hence
created, possibly empty); the loop only runs when `data/` exists.
`ts` is `datetime.now().strftime("%Y%m%d_%H%M%S")`.  The
`metadata['name']` read is only reached with populated metadata
(extraction precedes backup); the `none` fallback is dead code. -/
def create_backup (ts : String) (root : FileMap) (arch : Archive) (p : Package) :
    Backup × List Event :=
  let name := (match p.metadata with | some m => m.name | none => "") ++ ("_" ++ (ts ++ ".tar.xz"))
  let contents := match arch.dataFiles with
    | none => []
    | some files => backupContents root files
  ({ name := name, contents := contents }, [Event.log "Creating backup..."])

/-- `dict.update` (`env.update(os.environ)`, line 159): insert every
binding of `upd` into `base`, in order, overriding existing keys. -/
def dictUpdate (base : Env) : Env → Env
  | [] => base
  | (k, v) :: rest => dictUpdate (insertAssoc k v base) rest

/-- The environment handed to `subprocess.run` (lines 158-160):
`env = env or {}; env.update(os.environ);
env["PACKAGE_ROOT"] = str(script_path.parent.parent)`. -/
def scriptEnv (envArg : Option Env) (osEnv : Env) (packageRoot : String) : Env :=
  insertAssoc "PACKAGE_ROOT" packageRoot (dictUpdate (envArg.getD []) osEnv)

/-- `Installer.run_script` (lines 149-172): absent script file is
success without running anything; otherwise the script process runs
with `scriptEnv` and a non-zero exit raises
`PackageError(f"{script_name} failed: {e.stderr}")`.  Returns the
emitted events, the environment the process received (`none` = no
process was run) and the raised exception, if any. -/
def run_script (script_name : String) (script : Option ScriptResult)
    (envArg : Option Env) (osEnv : Env) (packageRoot : String) :
    List Event × Option Env × Option PyError :=
  match script with
  | none => ([], none, none)
  | some s =>
    let events := [Event.log ("Running " ++ (script_name ++ "..."))]
    let env := scriptEnv envArg osEnv packageRoot
    if s.returncode ≠ 0 then
      (events, some env, some (.packageError (script_name ++ (" failed: " ++ s.stderr))))
    else (events, some env, none)

/-- `Installer.copy_files` (lines 174-185): no-op when the source tree
is absent, otherwise one log line and a recursive overwrite-copy of
every payload file onto the target root.  `fault` injects an `OSError`
from `shutil.copy2`.  Returns the new root, the emitted events and the
raised exception, if any. -/
def copy_files (root : FileMap) (dataFiles : Option FileMap) (fault : Option String) :
    FileMap × List Event × Option PyError :=
  match dataFiles with
  | none => (root, [], none)
  | some files =>
    let events := [Event.log "Copying files..."]
    match fault with
    | some m => (root, events, some (.ioError m))
    | none => (files.foldl (fun r fc => insertAssoc fc.1 fc.2 r) root, events, none)

instance {ε α : Type} [DecidableEq ε] [DecidableEq α] : DecidableEq (Except ε α) := fun x y =>
  match x, y with
  | .ok a, .ok b => if h : a = b then .isTrue (by simp [h]) else .isFalse (by simp [h])
  | .error a, .error b => if h : a = b then .isTrue (by simp [h]) else .isFalse (by simp [h])
  | .ok _, .error _ => .isFalse (by simp)
  | .error _, .ok _ => .isFalse (by simp)

/-- Result of one `Installer.install_package` call: the returned or
raised value, the signal emissions in order, the target root
afterwards, the backups created, and the final `Package` object (after
the `finally: package.cleanup()`). -/
structure InstallOutcome where
  result : Except PyError Bool
  events : List Event
  root : FileMap
  newBackups : List Backup
  pkg : Package
deriving DecidableEq, Repr

/-- The `except` + `finally` wrap-up of `install_package` (lines
233-238): log the failure with the package identity, re-raise, clean up. -/
def failOutcome (events : List Event) (e : PyError) (root : FileMap)
    (backups : List Backup) (p : Package) : InstallOutcome :=
  { result := .error e,
    events := events ++ [Event.log ("Failed to install " ++ (p.toStr ++ (": " ++ e.msg)))],
    root := root, newBackups := backups, pkg := p.cleanup }

/-- `Installer.install_package` (lines 192-238): the nine-step pipeline
with a progress emission after each step, exception propagation through
the `except` logger and the unconditional `finally` cleanup.
`md5` is the content-hash function, `ts` the backup timestamp, `osEnv`
the inherited process environment, `root` the target system root. -/
def install_package (md5 : String → String) (ts : String) (osEnv : Env)
    (root : FileMap) (arch : Archive) : InstallOutcome :=
  let ev0 := [Event.log ("Extracting " ++ (arch.pathName ++ "..."))]
  match Package.extract arch (initPkg arch) with
  | (p1, .error e) => failOutcome ev0 e root [] p1
  | (p1, .ok ws) =>
    match verify_checksums md5 arch p1 with
    | (vev, some e) => failOutcome (ev0 ++ [Event.progress 10] ++ vev) e root [] p1
    | (vev, none) =>
      let ev1 := ev0 ++ [Event.progress 10] ++ vev ++ [Event.progress 20] ++
        verify_dependencies p1 ++ [Event.progress 30]
      match create_backup ts root arch p1 with
      | (bk, bev) =>
        let ev2 := ev1 ++ bev ++ [Event.progress 40]
        match run_script "preinstall" arch.preinstall none osEnv ws.name with
        | (sev, _, some e) => failOutcome (ev2 ++ sev) e root [bk] p1
        | (sev, _, none) =>
          let ev3 := ev2 ++ sev ++ [Event.progress 50]
          match copy_files root arch.dataFiles arch.deployFault with
          | (root2, cev, some e) => failOutcome (ev3 ++ cev) e root2 [bk] p1
          | (root2, cev, none) =>
            let ev4 := ev3 ++ cev ++ [Event.progress 70]
            match run_script "postinstall" arch.postinstall none osEnv ws.name with
            | (pev, _, some e) => failOutcome (ev4 ++ pev) e root2 [bk] p1
            | (pev, _, none) =>
              { result := .ok true,
                events := ev4 ++ pev ++ [Event.progress 80, Event.progress 90,
                  Event.log ("Successfully installed " ++ p1.toStr)],
                root := root2, newBackups := [bk], pkg := p1.cleanup }

/-- The Python truthiness test `if self.installer.install_package(...)`:
a raised exception never reaches the test. -/
def retTrue : Except PyError Bool → Bool
  | .ok true => true
  | _ => false

/-- The batch progress `int((i / total) * 100)` (line 260).  The source
computes it in IEEE double precision; the model takes the exact
rational floor, which agrees with the source at every argument at which
any theorem below evaluates it (in particular at `i = total`, where the
float product is exact). -/
def progressPct (i total : Nat) : Nat := i * 100 / total

/-- Aggregate state of one `InstallerThread.run` invocation: signal
emissions, `logging.error` lines, target root, created backups and the
`success` counter. -/
structure BatchOutcome where
  events : List Event
  errorLog : List String
  root : FileMap
  backups : List Backup
  success : Nat
deriving DecidableEq, Repr

/-- One iteration of the `for i, package_path in enumerate(self.packages, 1)`
loop of `InstallerThread.run` (lines 253-261): the package's install
runs inside a per-package `try/except` that logs the failure
(`logging.error(f"Failed to install {package_path}: {e}")`) and
continues; the batch progress is emitted after the `except` block. -/
def runStep (md5 : String → String) (ts : String) (osEnv : Env) (total i : Nat)
    (st : BatchOutcome) (arch : Archive) : BatchOutcome :=
  let o := install_package md5 ts osEnv st.root arch
  { events := st.events ++ o.events ++ [Event.progress (progressPct i total)],
    errorLog := st.errorLog ++
      (match o.result with
       | .error e => ["Failed to install " ++ (arch.pathName ++ (": " ++ e.msg))]
       | .ok _ => []),
    root := o.root,
    backups := st.backups ++ o.newBackups,
    success := st.success + (if retTrue o.result then 1 else 0) }

/-- The whole package loop of `InstallerThread.run` (lines 253-261). -/
def runLoop (md5 : String → String) (ts : String) (osEnv : Env) (total : Nat) :
    Nat → BatchOutcome → List Archive → BatchOutcome
  | _, st, [] => st
  | i, st, arch :: rest =>
    runLoop md5 ts osEnv total (i + 1) (runStep md5 ts osEnv total i st arch) rest

/-- The state of `InstallerThread.run` as the loop starts:
`success = 0`, nothing emitted or logged yet, target root untouched. -/
def initState (root : FileMap) : BatchOutcome :=
  { events := [], errorLog := [], root := root, backups := [], success := 0 }

/-- `InstallerThread.run` (lines 247-272): drive the batch, then emit
`installation_completed` when every package succeeded, else
`installation_failed` with the failure count.  (The outer `try/except`
is unreachable in the model: nothing in the loop escapes the
per-package handler.) -/
def InstallerThread.run (md5 : String → String) (ts : String) (osEnv : Env)
    (root : FileMap) (packages : List Archive) : BatchOutcome :=
  let total := packages.length
  let st := runLoop md5 ts osEnv total 1 (initState root) packages
  if st.success = total then
    { st with events := st.events ++ [Event.completed] }
  else
    { st with events := st.events ++
        [Event.failed ("Failed to install " ++ (toString (total - st.success) ++ " package(s)"))] }

/-- The percentages delivered to the progress sink, in order. -/
def progressSeq (events : List Event) : List Nat :=
  events.filterMap (fun e => match e with | .progress n => some n | _ => none)

/-- Number of packages of a batch whose install raises, replaying the
same sequence of target roots the batch loop produces. -/
def failCount (md5 : String → String) (ts : String) (osEnv : Env) :
    FileMap → List Archive → Nat
  | _, [] => 0
  | root, arch :: rest =>
    let o := install_package md5 ts osEnv root arch
    (if retTrue o.result then 0 else 1) + failCount md5 ts osEnv o.root rest

/-- The target root after installing a prefix of the batch. -/
def rootAfter (md5 : String → String) (ts : String) (osEnv : Env) :
    FileMap → List Archive → FileMap
  | root, [] => root
  | root, arch :: rest =>
    rootAfter md5 ts osEnv (install_package md5 ts osEnv root arch).root rest

/-- The checksum-manifest entries the verifier rejects: referenced file
missing from the workspace, or recomputed hash different from the
recorded one. -/
def entryBad (md5 : String → String) (files : FileMap) (entry : String × String) : Bool :=
  match lookupAssoc entry.1 files with
  | none => true
  | some content => md5 content != entry.2

/-- The per-package progress ladder of `install_package`. -/
def instProgress : List Nat := [10, 20, 30, 40, 50, 70, 80, 90]

end ApgInstall

namespace ApgInstall

/-! ## Helper lemmas about events -/

/-- Lists of emissions that consist of log lines only. -/
def logsOnly (l : List Event) : Prop := ∀ e ∈ l, ∃ s, e = Event.log s

lemma logsOnly_nil : logsOnly [] := by intro e he; cases he

lemma logsOnly_map_log (msgs : List String) : logsOnly (msgs.map Event.log) := by
  intro e he
  rcases List.mem_map.1 he with ⟨s, _, rfl⟩
  exact ⟨s, rfl⟩

lemma logsOnly_singleton (s : String) : logsOnly [Event.log s] := by
  intro e he
  rcases List.mem_singleton.1 he with rfl
  exact ⟨s, rfl⟩

lemma progressSeq_append (a b : List Event) :
    progressSeq (a ++ b) = progressSeq a ++ progressSeq b :=
  List.filterMap_append _ _ _

lemma progressSeq_logsOnly {l : List Event} (h : logsOnly l) : progressSeq l = [] := by
  induction l with
  | nil => rfl
  | cons e rest ih =>
    rcases h e (List.mem_cons_self _ _) with ⟨s, rfl⟩
    have : logsOnly rest := fun x hx => h x (List.mem_cons_of_mem _ hx)
    simp [progressSeq, List.filterMap_cons] at ih ⊢
    exact ih this

lemma isSignal_false_of_logsOnly {l : List Event} (h : logsOnly l) :
    ∀ e ∈ l, e.isSignal = false := by
  intro e he
  rcases h e he with ⟨s, rfl⟩
  rfl

lemma verify_checksums_events (md5 : String → String) (arch : Archive) (p : Package) :
    logsOnly (verify_checksums md5 arch p).1 := by
  unfold verify_checksums
  split
  · exact logsOnly_nil
  · exact logsOnly_singleton _

lemma verify_dependencies_events (p : Package) : logsOnly (verify_dependencies p) := by
  unfold verify_dependencies
  split
  · exact logsOnly_nil
  · split
    · exact logsOnly_nil
    · exact logsOnly_map_log _

lemma create_backup_events (ts : String) (root : FileMap) (arch : Archive) (p : Package) :
    (create_backup ts root arch p).2 = [Event.log "Creating backup..."] := rfl

lemma run_script_events (n : String) (script : Option ScriptResult) (envArg : Option Env)
    (osEnv : Env) (r : String) : logsOnly (run_script n script envArg osEnv r).1 := by
  cases script with
  | none => exact logsOnly_nil
  | some s =>
    by_cases h : s.returncode ≠ 0
    · simp only [run_script, if_pos h]
      exact logsOnly_singleton _
    · simp only [run_script, if_neg h]
      exact logsOnly_singleton _

lemma copy_files_events (root : FileMap) (d : Option FileMap) (f : Option String) :
    logsOnly (copy_files root d f).2.1 := by
  unfold copy_files
  match d with
  | none => exact logsOnly_nil
  | some files =>
    match f with
    | some m => exact logsOnly_singleton _
    | none => exact logsOnly_singleton _

/-! ## Helper lemmas about strings -/

lemma head_data_append (a s : String) (ha : a.data ≠ []) :
    (a ++ s).data.head? = a.data.head? := by
  show (a.data ++ s.data).head? = a.data.head?
  cases h : a.data with
  | nil => exact absurd h ha
  | cons c rest => simp [h]

lemma append_ne_of_head (a s b : String) (ha : a.data ≠ [])
    (h : a.data.head? ≠ b.data.head?) : a ++ s ≠ b := by
  intro he
  apply h
  rw [← he, head_data_append a s ha]

/-! ## Helper lemmas about association lists -/

lemma lookup_insertAssoc (a b v : String) :
    ∀ l, lookupAssoc a (insertAssoc b v l) = if b = a then some v else lookupAssoc a l := by
  intro l
  induction l with
  | nil => simp [insertAssoc, lookupAssoc]
  | cons cw rest ih =>
    obtain ⟨c, w⟩ := cw
    by_cases hcb : c = b
    · subst hcb
      simp only [insertAssoc, if_pos rfl, lookupAssoc]
      by_cases hca : c = a <;> simp [hca]
    · simp only [insertAssoc, if_neg hcb, lookupAssoc]
      by_cases hca : c = a
      · have hba : ¬ b = a := fun h2 => hcb (hca.trans h2.symm)
        simp [hca, hba, lookupAssoc]
      · simp [hca, ih]

lemma lookup_eq_none_of_not_mem (a : String) :
    ∀ l : List (String × String), a ∉ l.map Prod.fst → lookupAssoc a l = none := by
  intro l
  induction l with
  | nil => intro _; rfl
  | cons cw rest ih =>
    obtain ⟨c, w⟩ := cw
    intro h
    simp only [List.map_cons, List.mem_cons] at h
    push_neg at h
    have hca : ¬ c = a := fun hc => h.1 hc.symm
    simp [lookupAssoc, hca, ih h.2]

lemma lookup_dictUpdate (k : String) :
    ∀ (upd base : Env), (upd.map Prod.fst).Nodup →
      lookupAssoc k (dictUpdate base upd)
        = match lookupAssoc k upd with
          | some v => some v
          | none => lookupAssoc k base := by
  intro upd
  induction upd with
  | nil => intro base _; rfl
  | cons bv rest ih =>
    obtain ⟨b, v⟩ := bv
    intro base hnd
    simp only [List.map_cons, List.nodup_cons] at hnd
    have := ih (insertAssoc b v base) hnd.2
    rw [dictUpdate, this]
    by_cases hbk : b = k
    · subst hbk
      have : lookupAssoc b rest = none := lookup_eq_none_of_not_mem b rest hnd.1
      simp [lookupAssoc, this, lookup_insertAssoc]
    · simp only [lookupAssoc, hbk, if_neg hbk]
      cases h : lookupAssoc k rest with
      | some w => rfl
      | none => simp [lookup_insertAssoc, hbk]

/-! ## Helper lemmas about extraction -/

lemma loadMd5_temp_dir : ∀ (lines : List String) (p : Package),
    ((loadMd5 lines p).1).temp_dir = p.temp_dir := by
  intro lines
  induction lines with
  | nil => intro p; rfl
  | cons line rest ih =>
    intro p
    unfold loadMd5
    match splitHashPath line with
    | none => rfl
    | some hp => exact ih _

lemma loadMd5_metadata : ∀ (lines : List String) (p : Package),
    ((loadMd5 lines p).1).metadata = p.metadata := by
  intro lines
  induction lines with
  | nil => intro p; rfl
  | cons line rest ih =>
    intro p
    unfold loadMd5
    match splitHashPath line with
    | none => rfl
    | some hp => exact ih _

lemma extract_temp_dir (arch : Archive) (p : Package) :
    ((Package.extract arch p).1).temp_dir = some { name := "apginstall-tmp", onDisk := true } := by
  unfold Package.extract
  match arch.metadata with
  | none => rfl
  | some m =>
    match arch.md5sumsLines with
    | none => rfl
    | some lines => simp [loadMd5_temp_dir]

lemma extract_metadata (arch : Archive) (p : Package) (m : Metadata)
    (hm : arch.metadata = some m) :
    ((Package.extract arch p).1).metadata = some m := by
  unfold Package.extract
  rw [hm]
  match arch.md5sumsLines with
  | none => rfl
  | some lines => simp [loadMd5_metadata]

lemma cleanup_of_onDisk {p : Package} {n : String}
    (h : p.temp_dir = some { name := n, onDisk := true }) :
    p.cleanup.temp_dir = some { name := n, onDisk := false } := by
  unfold Package.cleanup
  rw [h]
  rfl

end ApgInstall

namespace ApgInstall

/-! ## Emission-shape lemmas -/

@[simp] lemma progressSeq_nil : progressSeq [] = [] := rfl

@[simp] lemma progressSeq_cons_log (s : String) (l : List Event) :
    progressSeq (Event.log s :: l) = progressSeq l := by
  simp [progressSeq, List.filterMap_cons]

@[simp] lemma progressSeq_cons_progress (n : Nat) (l : List Event) :
    progressSeq (Event.progress n :: l) = n :: progressSeq l := by
  simp [progressSeq, List.filterMap_cons]

/-- Emission lists that contain neither batch-level signal. -/
def noSignals (l : List Event) : Prop := ∀ e ∈ l, e.isSignal = false

lemma noSignals_nil : noSignals [] := by intro e he; cases he

lemma noSignals_append {a b : List Event} (ha : noSignals a) (hb : noSignals b) :
    noSignals (a ++ b) := by
  intro e he
  rcases List.mem_append.1 he with h | h
  · exact ha e h
  · exact hb e h

lemma noSignals_cons {e : Event} {l : List Event} (he : e.isSignal = false)
    (hl : noSignals l) : noSignals (e :: l) := by
  intro x hx
  rcases List.mem_cons.1 hx with rfl | h
  · exact he
  · exact hl x h

lemma noSignals_of_logsOnly {l : List Event} (h : logsOnly l) : noSignals l :=
  isSignal_false_of_logsOnly h


@[simp] lemma isSignal_log (s : String) : (Event.log s).isSignal = false := rfl

@[simp] lemma isSignal_progress (n : Nat) : (Event.progress n).isSignal = false := rfl

@[simp] lemma isSignal_completed : (Event.completed).isSignal = true := rfl

@[simp] lemma isSignal_failed (d : String) : (Event.failed d).isSignal = true := rfl

@[simp] lemma noSignals_nil_iff : noSignals ([] : List Event) := noSignals_nil

@[simp] lemma noSignals_append_iff (a b : List Event) :
    noSignals (a ++ b) ↔ noSignals a ∧ noSignals b := by
  constructor
  · intro h
    exact ⟨fun e he => h e (List.mem_append.2 (Or.inl he)),
      fun e he => h e (List.mem_append.2 (Or.inr he))⟩
  · intro h
    exact noSignals_append h.1 h.2

@[simp] lemma noSignals_cons_iff (e : Event) (l : List Event) :
    noSignals (e :: l) ↔ e.isSignal = false ∧ noSignals l := by
  constructor
  · intro h
    exact ⟨h e (List.mem_cons_self _ _), fun x hx => h x (List.mem_cons_of_mem _ hx)⟩
  · intro h
    exact noSignals_cons h.1 h.2

/-- Master characterization of one `install_package` call: the result is
the returned `True` or a raised exception; the progress emissions are a
prefix of the ladder `10,20,30,40,50,70,80,90` (the whole ladder exactly
on success); no batch-level signal is emitted; the first emission is the
`Extracting ...` log; and the workspace is cleaned up. -/
lemma install_shape (md5 : String → String) (ts : String) (osEnv : Env)
    (root : FileMap) (arch : Archive) :
    ((install_package md5 ts osEnv root arch).result = .ok true ∨
        ∃ e, (install_package md5 ts osEnv root arch).result = .error e)
    ∧ (∃ n, n ≤ 8 ∧
        progressSeq (install_package md5 ts osEnv root arch).events = instProgress.take n ∧
        ((install_package md5 ts osEnv root arch).result = .ok true → n = 8))
    ∧ noSignals (install_package md5 ts osEnv root arch).events
    ∧ (∃ tail, (install_package md5 ts osEnv root arch).events
        = Event.log ("Extracting " ++ (arch.pathName ++ "...")) :: tail)
    ∧ (install_package md5 ts osEnv root arch).pkg.temp_dir
        = some { name := "apginstall-tmp", onDisk := false } := by
  rcases hE : Package.extract arch (initPkg arch) with ⟨p1, res⟩
  have hp1t : p1.temp_dir = some { name := "apginstall-tmp", onDisk := true } := by
    have h := extract_temp_dir arch (initPkg arch)
    rw [hE] at h
    exact h
  have hpkgc : p1.cleanup.temp_dir = some { name := "apginstall-tmp", onDisk := false } :=
    cleanup_of_onDisk hp1t
  have hdeps := noSignals_of_logsOnly (verify_dependencies_events p1)
  have hdepsP := progressSeq_logsOnly (verify_dependencies_events p1)
  cases res with
  | error e =>
    simp only [install_package, hE, failOutcome]
    refine ⟨Or.inr ⟨e, rfl⟩, ⟨0, by omega, by simp [progressSeq], by simp⟩, ?_, ⟨_, rfl⟩, hpkgc⟩
    simp [noSignals]
  | ok ws =>
    rcases hV : verify_checksums md5 arch p1 with ⟨vev, vres⟩
    have hlv : logsOnly vev := by
      have h := verify_checksums_events md5 arch p1
      rw [hV] at h
      exact h
    have hnv := noSignals_of_logsOnly hlv
    have hpv := progressSeq_logsOnly hlv
    cases vres with
    | some e =>
      simp only [install_package, hE, hV, failOutcome]
      refine ⟨Or.inr ⟨e, rfl⟩, ⟨1, by omega, ?_, by simp⟩, ?_, ⟨_, rfl⟩, hpkgc⟩
      · simp [progressSeq_append, hpv, instProgress]
      · simp [hnv]
    | none =>
      rcases hB : create_backup ts root arch p1 with ⟨bk, bev⟩
      have hbev : bev = [Event.log "Creating backup..."] := by
        have h := create_backup_events ts root arch p1
        rw [hB] at h
        exact h
      subst hbev
      rcases hS : run_script "preinstall" arch.preinstall none osEnv ws.name with ⟨sev, senv, sres⟩
      have hls : logsOnly sev := by
        have h := run_script_events "preinstall" arch.preinstall none osEnv ws.name
        rw [hS] at h
        exact h
      have hns := noSignals_of_logsOnly hls
      have hps := progressSeq_logsOnly hls
      cases sres with
      | some e =>
        simp only [install_package, hE, hV, hB, hS, failOutcome]
        refine ⟨Or.inr ⟨e, rfl⟩, ⟨4, by omega, ?_, by simp⟩, ?_, ⟨_, rfl⟩, hpkgc⟩
        · simp [progressSeq_append, hpv, hdepsP, hps, instProgress]
        · simp [hnv, hdeps, hns]
      | none =>
        rcases hC : copy_files root arch.dataFiles arch.deployFault with ⟨root2, cev, cres⟩
        have hlc : logsOnly cev := by
          have h := copy_files_events root arch.dataFiles arch.deployFault
          rw [hC] at h
          exact h
        have hnc := noSignals_of_logsOnly hlc
        have hpc := progressSeq_logsOnly hlc
        cases cres with
        | some e =>
          simp only [install_package, hE, hV, hB, hS, hC, failOutcome]
          refine ⟨Or.inr ⟨e, rfl⟩, ⟨5, by omega, ?_, by simp⟩, ?_, ⟨_, rfl⟩, hpkgc⟩
          · simp [progressSeq_append, hpv, hdepsP, hps, hpc, instProgress]
          · simp [hnv, hdeps, hns, hnc]
        | none =>
          rcases hP : run_script "postinstall" arch.postinstall none osEnv ws.name
            with ⟨pev, penv, pres⟩
          have hlp : logsOnly pev := by
            have h := run_script_events "postinstall" arch.postinstall none osEnv ws.name
            rw [hP] at h
            exact h
          have hnp := noSignals_of_logsOnly hlp
          have hpp := progressSeq_logsOnly hlp
          cases pres with
          | some e =>
            simp only [install_package, hE, hV, hB, hS, hC, hP, failOutcome]
            refine ⟨Or.inr ⟨e, rfl⟩, ⟨6, by omega, ?_, by simp⟩, ?_, ⟨_, rfl⟩, hpkgc⟩
            · simp [progressSeq_append, hpv, hdepsP, hps, hpc, hpp, instProgress]
            · simp [hnv, hdeps, hns, hnc, hnp]
          | none =>
            simp only [install_package, hE, hV, hB, hS, hC, hP]
            refine ⟨Or.inl trivial, ⟨8, by omega, ?_, fun _ => rfl⟩, ?_, ⟨_, rfl⟩, hpkgc⟩
            · simp [progressSeq_append, hpv, hdepsP, hps, hpc, hpp, instProgress]
            · simp [hnv, hdeps, hns, hnc, hnp]

/-! ## Batch-loop lemmas -/

lemma runStep_events (md5 : String → String) (ts : String) (osEnv : Env) (total i : Nat)
    (st : BatchOutcome) (arch : Archive) :
    (runStep md5 ts osEnv total i st arch).events
      = st.events ++ (install_package md5 ts osEnv st.root arch).events
          ++ [Event.progress (progressPct i total)] := rfl

lemma runStep_root (md5 : String → String) (ts : String) (osEnv : Env) (total i : Nat)
    (st : BatchOutcome) (arch : Archive) :
    (runStep md5 ts osEnv total i st arch).root
      = (install_package md5 ts osEnv st.root arch).root := rfl

lemma runStep_success_ok (md5 : String → String) (ts : String) (osEnv : Env) (total i : Nat)
    (st : BatchOutcome) (arch : Archive)
    (h : (install_package md5 ts osEnv st.root arch).result = .ok true) :
    (runStep md5 ts osEnv total i st arch).success = st.success + 1 := by
  simp [runStep, h, retTrue]

lemma runStep_success_err (md5 : String → String) (ts : String) (osEnv : Env) (total i : Nat)
    (st : BatchOutcome) (arch : Archive) (e : PyError)
    (h : (install_package md5 ts osEnv st.root arch).result = .error e) :
    (runStep md5 ts osEnv total i st arch).success = st.success := by
  simp [runStep, h, retTrue]

lemma runStep_errorLog_ok (md5 : String → String) (ts : String) (osEnv : Env) (total i : Nat)
    (st : BatchOutcome) (arch : Archive)
    (h : (install_package md5 ts osEnv st.root arch).result = .ok true) :
    (runStep md5 ts osEnv total i st arch).errorLog = st.errorLog := by
  simp [runStep, h]

lemma runStep_errorLog_err (md5 : String → String) (ts : String) (osEnv : Env) (total i : Nat)
    (st : BatchOutcome) (arch : Archive) (e : PyError)
    (h : (install_package md5 ts osEnv st.root arch).result = .error e) :
    (runStep md5 ts osEnv total i st arch).errorLog
      = st.errorLog ++ ["Failed to install " ++ (arch.pathName ++ (": " ++ e.msg))] := by
  simp [runStep, h]

lemma failCount_cons (md5 : String → String) (ts : String) (osEnv : Env)
    (root : FileMap) (arch : Archive) (rest : List Archive) :
    failCount md5 ts osEnv root (arch :: rest)
      = (if retTrue (install_package md5 ts osEnv root arch).result then 0 else 1)
        + failCount md5 ts osEnv (install_package md5 ts osEnv root arch).root rest := rfl

lemma failCount_le (md5 : String → String) (ts : String) (osEnv : Env) :
    ∀ (batch : List Archive) (root : FileMap),
      failCount md5 ts osEnv root batch ≤ batch.length := by
  intro batch
  induction batch with
  | nil => intro root; simp [failCount]
  | cons a rest ih =>
    intro root
    rw [failCount_cons]
    have := ih ((install_package md5 ts osEnv root a).root)
    simp only [List.length_cons]
    split <;> omega

lemma runLoop_counts (md5 : String → String) (ts : String) (osEnv : Env) (total : Nat) :
    ∀ (batch : List Archive) (i : Nat) (st : BatchOutcome),
      (runLoop md5 ts osEnv total i st batch).success
          = st.success + (batch.length - failCount md5 ts osEnv st.root batch)
      ∧ (runLoop md5 ts osEnv total i st batch).errorLog.length
          = st.errorLog.length + failCount md5 ts osEnv st.root batch := by
  intro batch
  induction batch with
  | nil => intro i st; simp [runLoop, failCount]
  | cons a rest ih =>
    intro i st
    have hfle := failCount_le md5 ts osEnv rest ((install_package md5 ts osEnv st.root a).root)
    obtain ⟨ih1, ih2⟩ := ih (i + 1) (runStep md5 ts osEnv total i st a)
    rcases (install_shape md5 ts osEnv st.root a).1 with hok | ⟨e, herr⟩
    · constructor
      · rw [runLoop, ih1, runStep_success_ok md5 ts osEnv total i st a hok,
          runStep_root, failCount_cons, hok]
        simp [retTrue] <;> omega
      · rw [runLoop, ih2, runStep_errorLog_ok md5 ts osEnv total i st a hok,
          runStep_root, failCount_cons, hok]
        simp [retTrue] <;> omega
    · constructor
      · rw [runLoop, ih1, runStep_success_err md5 ts osEnv total i st a e herr,
          runStep_root, failCount_cons, herr]
        simp [retTrue] <;> omega
      · rw [runLoop, ih2, runStep_errorLog_err md5 ts osEnv total i st a e herr,
          runStep_root, failCount_cons, herr]
        simp [retTrue] <;> omega

lemma runLoop_events_ext (md5 : String → String) (ts : String) (osEnv : Env) (total : Nat) :
    ∀ (batch : List Archive) (i : Nat) (st : BatchOutcome),
      ∃ tail, (runLoop md5 ts osEnv total i st batch).events = st.events ++ tail
        ∧ noSignals tail := by
  intro batch
  induction batch with
  | nil => intro i st; exact ⟨[], by simp [runLoop], noSignals_nil⟩
  | cons a rest ih =>
    intro i st
    obtain ⟨tail, ht, hns⟩ := ih (i + 1) (runStep md5 ts osEnv total i st a)
    refine ⟨(install_package md5 ts osEnv st.root a).events
        ++ [Event.progress (progressPct i total)] ++ tail, ?_, ?_⟩
    · rw [runLoop, ht, runStep_events]
      simp [List.append_assoc]
    · have hins := (install_shape md5 ts osEnv st.root a).2.2.1
      refine noSignals_append (noSignals_append hins ?_) hns
      exact noSignals_cons rfl noSignals_nil

end ApgInstall

namespace ApgInstall

lemma runStep_errorLog (md5 : String → String) (ts : String) (osEnv : Env) (total i : Nat)
    (st : BatchOutcome) (arch : Archive) :
    (runStep md5 ts osEnv total i st arch).errorLog
      = st.errorLog ++
        (match (install_package md5 ts osEnv st.root arch).result with
         | .error e => ["Failed to install " ++ (arch.pathName ++ (": " ++ e.msg))]
         | .ok _ => []) := rfl

lemma runLoop_errorLog_ext (md5 : String → String) (ts : String) (osEnv : Env) (total : Nat) :
    ∀ (batch : List Archive) (i : Nat) (st : BatchOutcome),
      ∃ tail, (runLoop md5 ts osEnv total i st batch).errorLog = st.errorLog ++ tail := by
  intro batch
  induction batch with
  | nil => intro i st; exact ⟨[], by simp [runLoop]⟩
  | cons a rest ih =>
    intro i st
    obtain ⟨tail, ht⟩ := ih (i + 1) (runStep md5 ts osEnv total i st a)
    refine ⟨(match (install_package md5 ts osEnv st.root a).result with
         | .error e => ["Failed to install " ++ (a.pathName ++ (": " ++ e.msg))]
         | .ok _ => []) ++ tail, ?_⟩
    rw [runLoop, ht, runStep_errorLog]
    simp [List.append_assoc]

lemma runLoop_attempt (md5 : String → String) (ts : String) (osEnv : Env) (total : Nat) :
    ∀ (batch : List Archive) (i : Nat) (st : BatchOutcome) (j : Nat) (h : j < batch.length),
      Event.log ("Extracting " ++ ((batch.get ⟨j, h⟩).pathName ++ "..."))
        ∈ (runLoop md5 ts osEnv total i st batch).events := by
  intro batch
  induction batch with
  | nil => intro i st j h; exact absurd h (Nat.not_lt_zero j)
  | cons a rest ih =>
    intro i st j h
    match j with
    | 0 =>
      obtain ⟨tail, ht, _⟩ :=
        runLoop_events_ext md5 ts osEnv total rest (i + 1) (runStep md5 ts osEnv total i st a)
      rw [runLoop, ht, runStep_events]
      obtain ⟨tl, htl⟩ := (install_shape md5 ts osEnv st.root a).2.2.2.1
      rw [htl]
      simp
    | j' + 1 =>
      rw [runLoop]
      exact ih (i + 1) (runStep md5 ts osEnv total i st a) j' (Nat.lt_of_succ_lt_succ h)

lemma runLoop_errmem (md5 : String → String) (ts : String) (osEnv : Env) (total : Nat) :
    ∀ (batch : List Archive) (i : Nat) (st : BatchOutcome) (j : Nat) (h : j < batch.length)
      (e : PyError),
      (install_package md5 ts osEnv (rootAfter md5 ts osEnv st.root (batch.take j))
          (batch.get ⟨j, h⟩)).result = .error e →
      ("Failed to install " ++ ((batch.get ⟨j, h⟩).pathName ++ (": " ++ e.msg)))
        ∈ (runLoop md5 ts osEnv total i st batch).errorLog := by
  intro batch
  induction batch with
  | nil => intro i st j h; exact absurd h (Nat.not_lt_zero j)
  | cons a rest ih =>
    intro i st j h e herr
    match j with
    | 0 =>
      obtain ⟨tail, ht⟩ :=
        runLoop_errorLog_ext md5 ts osEnv total rest (i + 1) (runStep md5 ts osEnv total i st a)
      rw [runLoop, ht, runStep_errorLog]
      have herr0 : (install_package md5 ts osEnv st.root a).result = .error e := herr
      rw [herr0]
      simp
    | j' + 1 =>
      rw [runLoop]
      exact ih (i + 1) (runStep md5 ts osEnv total i st a) j' (Nat.lt_of_succ_lt_succ h) e herr

end ApgInstall

namespace ApgInstall

/-- C1: for any batch of `N` packages supplied in order, of which `K`
fail, the orchestrator run yields `success = N - K`, records exactly
`K` failure details in the error log, emits `installation_completed`
iff `K = 0`, and otherwise emits `installation_failed` reporting the
count `K` of failed packages. -/
theorem batch_aggregate_result (md5 : String → String) (ts : String) (osEnv : Env)
    (root : FileMap) (packages : List Archive) :
    (InstallerThread.run md5 ts osEnv root packages).success
        = packages.length - failCount md5 ts osEnv root packages
    ∧ (InstallerThread.run md5 ts osEnv root packages).errorLog.length
        = failCount md5 ts osEnv root packages
    ∧ ((Event.completed ∈ (InstallerThread.run md5 ts osEnv root packages).events)
        ↔ failCount md5 ts osEnv root packages = 0)
    ∧ ((Event.failed ("Failed to install "
          ++ (toString (failCount md5 ts osEnv root packages) ++ " package(s)")))
        ∈ (InstallerThread.run md5 ts osEnv root packages).events
        ↔ failCount md5 ts osEnv root packages ≠ 0) := by
  obtain ⟨hsucc, herrlen⟩ :=
    runLoop_counts md5 ts osEnv packages.length packages 1 (initState root)
  obtain ⟨tail, htail, hns⟩ :=
    runLoop_events_ext md5 ts osEnv packages.length packages 1 (initState root)
  have hKle := failCount_le md5 ts osEnv packages root
  have h0s : (initState root).success = 0 := rfl
  have h0e : (initState root).events = [] := rfl
  have h0l : (initState root).errorLog = [] := rfl
  have h0r : (initState root).root = root := rfl
  rw [h0s, h0r] at hsucc
  rw [h0l, h0r] at herrlen
  rw [h0e] at htail
  simp only [List.nil_append, List.length_nil] at htail herrlen
  set L := runLoop md5 ts osEnv packages.length 1 (initState root) packages with hL
  set K := failCount md5 ts osEnv root packages with hK
  by_cases hc : L.success = packages.length
  · have hK0 : K = 0 := by omega
    have hrun : InstallerThread.run md5 ts osEnv root packages
        = { L with events := L.events ++ [Event.completed] } := by
      simp only [InstallerThread.run]
      rw [← hL, if_pos hc]
    rw [hrun]
    refine ⟨by simpa using hsucc, by simpa using herrlen, ?_, ?_⟩
    · simp [hK0]
    · simp only [hK0]
      constructor
      · intro hmem
        exfalso
        rcases List.mem_append.1 hmem with hm | hm
        · rw [htail] at hm
          have := hns _ hm
          simp at this
        · simp at hm
      · intro hne
        exact absurd rfl hne
  · have hKne : K ≠ 0 := by omega
    have hcount : packages.length - L.success = K := by omega
    have hrun : InstallerThread.run md5 ts osEnv root packages
        = { L with events := L.events ++ [Event.failed ("Failed to install "
            ++ (toString (packages.length - L.success) ++ " package(s)"))] } := by
      simp only [InstallerThread.run]
      rw [← hL, if_neg hc]
    rw [hcount] at hrun
    rw [hrun]
    refine ⟨by simpa using hsucc, by simpa using herrlen, ?_, ?_⟩
    · constructor
      · intro hmem
        exfalso
        rcases List.mem_append.1 hmem with hm | hm
        · rw [htail] at hm
          have := hns _ hm
          simp at this
        · simp at hm
      · intro h0
        exact absurd h0 hKne
    · constructor
      · intro _
        exact hKne
      · intro _
        simp

end ApgInstall

namespace ApgInstall

/-- A minimal well-formed archive that installs successfully: the
`demo-1.0.apg` example of the specification (no checksums, no payload,
no scripts). -/
def demoArch : Archive :=
  { pathName := "demo-1.0.apg",
    metadata := some { name := "demo", version := "1.0", dependencies := none },
    md5sumsLines := none, files := [], dataFiles := none,
    preinstall := none, postinstall := none, deployFault := none }

/-- `demoArch` with a checksum manifest whose recorded hash differs from
the recomputed hash of the extracted file. -/
def badSumArch : Archive :=
  { pathName := "demo-1.0.apg",
    metadata := some { name := "demo", version := "1.0", dependencies := none },
    md5sumsLines := some ["XX  etc/demo.conf"], files := [("etc/demo.conf", "content")],
    dataFiles := none, preinstall := none, postinstall := none, deployFault := none }

@[simp] lemma progressSeq_cons_completed (l : List Event) :
    progressSeq (Event.completed :: l) = progressSeq l := by
  simp [progressSeq, List.filterMap_cons]

@[simp] lemma progressSeq_cons_failed (d : String) (l : List Event) :
    progressSeq (Event.failed d :: l) = progressSeq l := by
  simp [progressSeq, List.filterMap_cons]

lemma run_single_progress (md5 : String → String) (ts : String) (osEnv : Env)
    (root : FileMap) (arch : Archive) :
    progressSeq (InstallerThread.run md5 ts osEnv root [arch]).events
      = progressSeq (install_package md5 ts osEnv root arch).events ++ [100] := by
  have h1 : ([arch] : List Archive).length = 1 := rfl
  have hloop : runLoop md5 ts osEnv 1 1 (initState root) [arch]
      = runStep md5 ts osEnv 1 1 (initState root) arch := rfl
  have hpct : progressPct 1 1 = 100 := rfl
  simp only [InstallerThread.run, h1, hloop]
  by_cases hc : (runStep md5 ts osEnv 1 1 (initState root) arch).success = 1
  · rw [if_pos hc]
    show progressSeq ((runStep md5 ts osEnv 1 1 (initState root) arch).events
        ++ [Event.completed]) = _
    rw [runStep_events]
    have h0e : (initState root).events = [] := rfl
    have h0r : (initState root).root = root := rfl
    rw [h0e, h0r, hpct]
    simp [progressSeq_append]
  · rw [if_neg hc]
    show progressSeq ((runStep md5 ts osEnv 1 1 (initState root) arch).events
        ++ [Event.failed ("Failed to install "
          ++ (toString (1 - (runStep md5 ts osEnv 1 1 (initState root) arch).success)
            ++ " package(s)"))]) = _
    rw [runStep_events]
    have h0e : (initState root).events = [] := rfl
    have h0r : (initState root).root = root := rfl
    rw [h0e, h0r, hpct]
    simp [progressSeq_append]

/-- C3: a batch containing exactly one package that installs
successfully delivers exactly the progress percentages
`10, 20, 30, 40, 50, 70, 80, 90, 100`, in that order. -/
theorem single_success_progress (md5 : String → String) (ts : String) (osEnv : Env)
    (root : FileMap) (arch : Archive)
    (h : (install_package md5 ts osEnv root arch).result = .ok true) :
    progressSeq (InstallerThread.run md5 ts osEnv root [arch]).events
      = [10, 20, 30, 40, 50, 70, 80, 90, 100] := by
  obtain ⟨n, hn8, hps, himp⟩ := (install_shape md5 ts osEnv root arch).2.1
  have h8 : n = 8 := himp h
  subst h8
  rw [run_single_progress, hps]
  rfl

/-- Witness for C3 at the concrete `demo-1.0.apg` archive. -/
theorem single_success_progress_witness :
    progressSeq (InstallerThread.run (fun _ => "H") "20250121_132110" [] [] [demoArch]).events
      = [10, 20, 30, 40, 50, 70, 80, 90, 100] :=
  single_success_progress (fun _ => "H") "20250121_132110" [] [] demoArch (by decide)

/-- C2 (amended): within one package's lifecycle the delivered
percentages strictly increase (a prefix of `10,20,30,40,50,70,80,90`),
and a single-package batch never regresses over the whole run; batches
of two or more packages do regress at package boundaries
(see the counterexample). -/
theorem install_progress_strictly_increasing (md5 : String → String) (ts : String)
    (osEnv : Env) (root : FileMap) (arch : Archive) :
    List.Chain' (· < ·) (progressSeq (install_package md5 ts osEnv root arch).events)
    ∧ List.Chain' (· ≤ ·) (progressSeq (InstallerThread.run md5 ts osEnv root [arch]).events) := by
  obtain ⟨n, hn8, hps, _⟩ := (install_shape md5 ts osEnv root arch).2.1
  constructor
  · rw [hps]
    interval_cases n <;> norm_num [instProgress, List.chain'_cons]
  · rw [run_single_progress, hps]
    interval_cases n <;> norm_num [instProgress, List.chain'_cons]

/-- C2 counterexample: in a batch of two successful packages the
progress sequence delivered to the sink regresses (after the first
package reaches 90 the batch progress falls to 50 and the second
package restarts at 10), so the claim's "never regresses at any point
in the run, whatever the number of packages" is false as stated. -/
theorem batch_progress_regresses :
    ¬ List.Chain' (· ≤ ·)
      (progressSeq (InstallerThread.run (fun _ => "H") "20250121_132110" [] []
        [demoArch, demoArch]).events) := by
  have h : progressSeq (InstallerThread.run (fun _ => "H") "20250121_132110" [] []
      [demoArch, demoArch]).events
      = [10, 20, 30, 40, 50, 70, 80, 90, 50, 10, 20, 30, 40, 50, 70, 80, 90, 100] := by decide
  rw [h]
  simp [List.chain'_cons]

end ApgInstall

namespace ApgInstall

/-- C5: on every exit path of the install pipeline the workspace
directory created during extraction no longer exists once the
package's pipeline ends, and invoking `cleanup` a second time on the
same `Package` is a safe no-op. -/
theorem workspace_cleaned_every_path (md5 : String → String) (ts : String) (osEnv : Env)
    (root : FileMap) (arch : Archive) :
    (install_package md5 ts osEnv root arch).pkg.temp_dir
        = some { name := "apginstall-tmp", onDisk := false }
    ∧ ∀ p : Package, p.cleanup.cleanup = p.cleanup := by
  refine ⟨(install_shape md5 ts osEnv root arch).2.2.2.2, ?_⟩
  intro p
  cases h : p.temp_dir with
  | none => simp [Package.cleanup, h]
  | some d =>
    by_cases hb : d.onDisk
    · simp [Package.cleanup, h, hb]
    · simp [Package.cleanup, h, hb]

lemma verifyLoop_bad (md5 : String → String) (files : FileMap) :
    ∀ sums : List (String × String),
      (∃ pr ∈ sums, entryBad md5 files pr = true) →
      ∃ m, verifyLoop md5 files sums = some (.validationError m) := by
  intro sums
  induction sums with
  | nil =>
    rintro ⟨pr, hpr, _⟩
    cases hpr
  | cons pr0 rest ih =>
    rintro ⟨pr, hpr, hbad⟩
    simp only [verifyLoop]
    cases hl : lookupAssoc pr0.1 files with
    | none => exact ⟨_, rfl⟩
    | some content =>
      by_cases hmd : md5 content ≠ pr0.2
      · exact ⟨"Checksum mismatch for " ++ pr0.1, by simp [hmd]⟩
      · have hmd2 : md5 content = pr0.2 := of_not_not hmd
        rcases List.mem_cons.1 hpr with rfl | hmem
        · exfalso
          simp [entryBad, hl, hmd2] at hbad
        · obtain ⟨m, hm⟩ := ih ⟨pr, hmem, hbad⟩
          exact ⟨m, by simp [hmd2, hm]⟩

lemma verify_checksums_bad (md5 : String → String) (arch : Archive) (p : Package)
    (hbad : ∃ pr ∈ p.md5sums, entryBad md5 arch.files pr = true) :
    ∃ m, verify_checksums md5 arch p
      = ([Event.log "Verifying package checksums..."], some (.validationError m)) := by
  have hne : p.md5sums ≠ [] := by
    rcases hbad with ⟨pr, hpr, _⟩
    intro h
    rw [h] at hpr
    cases hpr
  obtain ⟨m, hm⟩ := verifyLoop_bad md5 arch.files p.md5sums hbad
  exact ⟨m, by simp [verify_checksums, hne, hm]⟩

/-- C4: when the parsed checksum manifest is non-empty and some entry's
referenced file is missing from the workspace or hashes differently
from the recorded value, the pipeline fails with `ValidationError` and
the deployment step never runs: the target root is untouched, the
pipeline never reaches the 50% mark and no `Copying files...` log is
emitted. -/
theorem checksum_mismatch_blocks_deploy (md5 : String → String) (ts : String) (osEnv : Env)
    (root : FileMap) (arch : Archive) (p1 : Package) (ws : TempDir)
    (hE : Package.extract arch (initPkg arch) = (p1, .ok ws))
    (hbad : ∃ pr ∈ p1.md5sums, entryBad md5 arch.files pr = true) :
    (∃ m, (install_package md5 ts osEnv root arch).result = .error (.validationError m))
    ∧ (install_package md5 ts osEnv root arch).root = root
    ∧ Event.progress 50 ∉ (install_package md5 ts osEnv root arch).events
    ∧ Event.log "Copying files..." ∉ (install_package md5 ts osEnv root arch).events := by
  obtain ⟨m, hv⟩ := verify_checksums_bad md5 arch p1 hbad
  simp only [install_package, hE, hv, failOutcome]
  refine ⟨⟨m, rfl⟩, trivial, by simp, ?_⟩
  intro hmem
  have hne1 : ("Extracting " : String) ++ (arch.pathName ++ "...") ≠ "Copying files..." :=
    append_ne_of_head "Extracting " (arch.pathName ++ "...") "Copying files..."
      (by decide) (by decide)
  have hne2 : ("Failed to install " : String)
      ++ (p1.toStr ++ (": " ++ PyError.msg (.validationError m))) ≠ "Copying files..." :=
    append_ne_of_head "Failed to install "
      (p1.toStr ++ (": " ++ PyError.msg (.validationError m))) "Copying files..."
      (by decide) (by decide)
  simp only [List.append_assoc, List.cons_append, List.nil_append, List.mem_cons,
    List.mem_singleton, List.not_mem_nil, or_false] at hmem
  rcases hmem with h | h | h | h
  · exact hne1 (Event.log.inj h).symm
  · exact Event.noConfusion h
  · exact absurd (Event.log.inj h).symm (by decide)
  · exact hne2 (Event.log.inj h).symm

/-- C6: every package in the batch is attempted regardless of earlier
failures (its `Extracting ...` log is emitted), the number of logged
failure entries equals the number of failing packages, and each
package whose pipeline raises gets a `Failed to install <path>: <err>`
entry in the error log; no package's error aborts the remainder of the
batch. -/
theorem per_package_isolation (md5 : String → String) (ts : String) (osEnv : Env)
    (root : FileMap) (batch : List Archive) (j : Nat) (h : j < batch.length) :
    Event.log ("Extracting " ++ ((batch.get ⟨j, h⟩).pathName ++ "..."))
        ∈ (InstallerThread.run md5 ts osEnv root batch).events
    ∧ (InstallerThread.run md5 ts osEnv root batch).errorLog.length
        = failCount md5 ts osEnv root batch
    ∧ ∀ e : PyError,
        (install_package md5 ts osEnv (rootAfter md5 ts osEnv root (batch.take j))
            (batch.get ⟨j, h⟩)).result = .error e →
        ("Failed to install " ++ ((batch.get ⟨j, h⟩).pathName ++ (": " ++ e.msg)))
          ∈ (InstallerThread.run md5 ts osEnv root batch).errorLog := by
  have hatt := runLoop_attempt md5 ts osEnv batch.length batch 1 (initState root) j h
  have herrm := runLoop_errmem md5 ts osEnv batch.length batch 1 (initState root) j h
  obtain ⟨_, herrlen⟩ := runLoop_counts md5 ts osEnv batch.length batch 1 (initState root)
  set L := runLoop md5 ts osEnv batch.length 1 (initState root) batch with hL
  have hev : ∃ sig, (InstallerThread.run md5 ts osEnv root batch).events
      = L.events ++ [sig] := by
    simp only [InstallerThread.run, ← hL]
    by_cases hc : L.success = batch.length
    · rw [if_pos hc]
      exact ⟨_, rfl⟩
    · rw [if_neg hc]
      exact ⟨_, rfl⟩
  have hlog : (InstallerThread.run md5 ts osEnv root batch).errorLog = L.errorLog := by
    simp only [InstallerThread.run, ← hL]
    by_cases hc : L.success = batch.length
    · rw [if_pos hc]
    · rw [if_neg hc]
  obtain ⟨sig, hsig⟩ := hev
  refine ⟨?_, ?_, ?_⟩
  · rw [hsig]
    exact List.mem_append.2 (Or.inl hatt)
  · rw [hlog]
    simpa [initState] using herrlen
  · intro e he
    rw [hlog]
    exact herrm e he

/-- Witness for C6: in the batch `[badSumArch, demoArch]` the first
package fails checksum verification, yet the second package is still
attempted, and the first failure is logged with the package identity. -/
theorem per_package_isolation_witness :
    Event.log ("Extracting " ++ (("demo-1.0.apg" : String) ++ "..."))
      ∈ (InstallerThread.run (fun _ => "H") "20250121_132110" [] []
          [badSumArch, demoArch]).events
    ∧ ("Failed to install " ++ (("demo-1.0.apg" : String) ++ (": " ++
        PyError.msg (.validationError "Checksum mismatch for etc/demo.conf"))))
      ∈ (InstallerThread.run (fun _ => "H") "20250121_132110" [] []
          [badSumArch, demoArch]).errorLog :=
  ⟨(per_package_isolation (fun _ => "H") "20250121_132110" [] []
      [badSumArch, demoArch] 1 (by decide)).1,
   (per_package_isolation (fun _ => "H") "20250121_132110" [] []
      [badSumArch, demoArch] 0 (by decide)).2.2
      (.validationError "Checksum mismatch for etc/demo.conf") (by decide)⟩

end ApgInstall

namespace ApgInstall

/-! ## C7: backup step -/

lemma backupContents_mem (root : FileMap) :
    ∀ (files : FileMap) (pa c : String),
      (pa, c) ∈ backupContents root files
        ↔ (∃ c₀, (pa, c₀) ∈ files) ∧ lookupAssoc pa root = some c := by
  intro files
  induction files with
  | nil =>
    intro pa c
    simp [backupContents]
  | cons q rest ih =>
    intro pa c
    simp only [backupContents]
    cases hl : lookupAssoc q.1 root with
    | some live =>
      show (pa, c) ∈ (q.1, live) :: backupContents root rest ↔ _
      constructor
      · intro hmem
        rcases List.mem_cons.1 hmem with heq | hmem2
        · injection heq with h1 h2
          subst h1
          subst h2
          refine ⟨⟨q.2, ?_⟩, hl⟩
          rw [Prod.mk.eta]
          exact List.mem_cons_self _ _
        · obtain ⟨⟨c₀, hc₀⟩, hlp⟩ := (ih pa c).1 hmem2
          exact ⟨⟨c₀, List.mem_cons_of_mem _ hc₀⟩, hlp⟩
      · rintro ⟨⟨c₀, hc₀⟩, hlp⟩
        rcases List.mem_cons.1 hc₀ with heq | hmem2
        · have hpa : q.1 = pa := by rw [← heq]
          rw [← hpa] at hlp
          rw [hl] at hlp
          injection hlp with hcl
          exact List.mem_cons.2 (Or.inl (by rw [hpa, hcl]))
        · exact List.mem_cons.2 (Or.inr ((ih pa c).2 ⟨⟨c₀, hmem2⟩, hlp⟩))
    | none =>
      show (pa, c) ∈ backupContents root rest ↔ _
      rw [ih]
      constructor
      · rintro ⟨⟨c₀, hc₀⟩, hlp⟩
        exact ⟨⟨c₀, List.mem_cons_of_mem _ hc₀⟩, hlp⟩
      · rintro ⟨⟨c₀, hc₀⟩, hlp⟩
        rcases List.mem_cons.1 hc₀ with heq | hmem2
        · exfalso
          have hpa : q.1 = pa := by rw [← heq]
          rw [← hpa, hl] at hlp
          cases hlp
        · exact ⟨⟨c₀, hmem2⟩, hlp⟩

/-- C7: the backup step always produces an archive named
`<package-name>_<timestamp>.tar.xz` (even when there is nothing to back
up), its contents are exactly the pre-overwrite copies of the payload
files whose relative path already exists under the target root, and an
absent payload tree yields an empty backup (nothing to overwrite). -/
theorem backup_step_contract (ts : String) (root : FileMap) (arch : Archive)
    (p : Package) (m : Metadata) (hm : p.metadata = some m) :
    (create_backup ts root arch p).1.name = m.name ++ ("_" ++ (ts ++ ".tar.xz"))
    ∧ (arch.dataFiles = none → (create_backup ts root arch p).1.contents = [])
    ∧ ∀ files, arch.dataFiles = some files →
        ∀ pa c, ((pa, c) ∈ (create_backup ts root arch p).1.contents
          ↔ (∃ c₀, (pa, c₀) ∈ files) ∧ lookupAssoc pa root = some c) := by
  refine ⟨?_, ?_, ?_⟩
  · simp [create_backup, hm]
  · intro hd
    simp [create_backup, hd]
  · intro files hd pa c
    simp only [create_backup, hd]
    exact backupContents_mem root files pa c

/-- `demoArch` with a payload tree of two files. -/
def dataDemoArch : Archive :=
  { pathName := "demo-1.0.apg",
    metadata := some { name := "demo", version := "1.0", dependencies := none },
    md5sumsLines := none, files := [],
    dataFiles := some [("etc/a", "new"), ("etc/b", "nb")],
    preinstall := none, postinstall := none, deployFault := none }

/-- A `Package` object as it looks right after successful extraction of
`demoArch`. -/
def demoPkg : Package :=
  { path := "demo-1.0.apg",
    temp_dir := some { name := "apginstall-tmp", onDisk := true },
    metadata := some { name := "demo", version := "1.0", dependencies := none },
    md5sums := [] }

/-- Witness for C7: against a root holding `etc/a` (content `old`) the
backup of `dataDemoArch` contains the pre-overwrite copy of exactly
that file. -/
theorem backup_step_contract_witness :
    ((("etc/a" : String), ("old" : String))
        ∈ (create_backup "20250121_132110" [("etc/a", "old")] dataDemoArch demoPkg).1.contents)
      ↔ ((∃ c₀, (("etc/a" : String), c₀) ∈ [("etc/a", "new"), ("etc/b", "nb")])
          ∧ lookupAssoc "etc/a" [("etc/a", "old")] = some "old") :=
  (backup_step_contract "20250121_132110" [("etc/a", "old")] dataDemoArch demoPkg
      { name := "demo", version := "1.0", dependencies := none } rfl).2.2
    [("etc/a", "new"), ("etc/b", "nb")] rfl "etc/a" "old"

/-! ## C8: script runner -/

/-- C8: an absent script file is trivial success with no process run;
an existing script runs with the inherited environment plus the
`PACKAGE_ROOT` variable; a non-zero exit raises `PackageError` carrying
the captured standard error. -/
theorem run_script_contract (script_name : String) (script : Option ScriptResult)
    (osEnv : Env) (packageRoot : String) (hnd : (osEnv.map Prod.fst).Nodup) :
    (script = none → run_script script_name script none osEnv packageRoot = ([], none, none))
    ∧ (∀ s : ScriptResult, script = some s →
        (run_script script_name script none osEnv packageRoot).2.1
            = some (scriptEnv none osEnv packageRoot)
        ∧ ∀ k, lookupAssoc k (scriptEnv none osEnv packageRoot)
            = if k = "PACKAGE_ROOT" then some packageRoot else lookupAssoc k osEnv)
    ∧ (∀ s : ScriptResult, script = some s → s.returncode ≠ 0 →
        (run_script script_name script none osEnv packageRoot).2.2
          = some (.packageError (script_name ++ (" failed: " ++ s.stderr)))) := by
  have henv : ∀ k, lookupAssoc k (scriptEnv none osEnv packageRoot)
      = if k = "PACKAGE_ROOT" then some packageRoot else lookupAssoc k osEnv := by
    intro k
    unfold scriptEnv
    rw [lookup_insertAssoc]
    have hupd := lookup_dictUpdate k osEnv [] hnd
    by_cases hk : k = "PACKAGE_ROOT"
    · subst hk
      rw [if_pos rfl, if_pos rfl]
    · have hk2 : ¬ "PACKAGE_ROOT" = k := fun h2 => hk h2.symm
      rw [if_neg hk2, if_neg hk]
      show lookupAssoc k (dictUpdate (([] : Env)) osEnv) = lookupAssoc k osEnv
      rw [hupd]
      cases hko : lookupAssoc k osEnv <;> rfl
  refine ⟨?_, ?_, ?_⟩
  · rintro rfl
    rfl
  · rintro s rfl
    refine ⟨?_, henv⟩
    by_cases hr : s.returncode ≠ 0
    · simp only [run_script, if_pos hr]
    · simp only [run_script, if_neg hr]
  · rintro s rfl hr
    simp only [run_script, if_pos hr]

/-- Witness for C8: a script exiting 1 with stderr `boom` raises
`PackageError` carrying that output. -/
theorem run_script_contract_witness :
    (run_script "postinstall" (some { returncode := 1, stderr := "boom" }) none
        [("PATH", "/bin")] "/tmp/ws").2.2
      = some (.packageError ("postinstall" ++ (" failed: " ++ "boom"))) :=
  (run_script_contract "postinstall" (some { returncode := 1, stderr := "boom" })
      [("PATH", "/bin")] "/tmp/ws" (by decide)).2.2
    { returncode := 1, stderr := "boom" } rfl (by decide)

end ApgInstall

namespace ApgInstall

/-- Witness for C4 at the concrete mismatching archive `badSumArch`. -/
theorem checksum_mismatch_blocks_deploy_witness :
    (∃ m, (install_package (fun _ => "H") "20250121_132110" [] [("x", "y")] badSumArch).result
        = .error (.validationError m))
    ∧ (install_package (fun _ => "H") "20250121_132110" [] [("x", "y")] badSumArch).root
        = [("x", "y")]
    ∧ Event.progress 50
        ∉ (install_package (fun _ => "H") "20250121_132110" [] [("x", "y")] badSumArch).events
    ∧ Event.log "Copying files..."
        ∉ (install_package (fun _ => "H") "20250121_132110" [] [("x", "y")] badSumArch).events :=
  checksum_mismatch_blocks_deploy (fun _ => "H") "20250121_132110" [] [("x", "y")] badSumArch
    { path := "demo-1.0.apg",
      temp_dir := some { name := "apginstall-tmp", onDisk := true },
      metadata := some { name := "demo", version := "1.0", dependencies := none },
      md5sums := [("etc/demo.conf", "XX")] }
    { name := "apginstall-tmp", onDisk := true }
    (by decide)
    ⟨("etc/demo.conf", "XX"), by decide, by decide⟩

/-! ## C9: extraction contract -/

lemma extract_ok_ws (arch : Archive) (p : Package) (ws : TempDir)
    (h : (Package.extract arch p).2 = .ok ws) :
    ws = { name := "apginstall-tmp", onDisk := true } := by
  cases hm : arch.metadata with
  | none => simp [Package.extract, hm] at h
  | some m =>
    cases hl : arch.md5sumsLines with
    | none =>
      simp only [Package.extract, hm, hl] at h
      exact (Except.ok.inj h).symm
    | some lines =>
      simp only [Package.extract, hm, hl] at h
      rcases hr : (loadMd5 lines
          { p with
            temp_dir := some { name := "apginstall-tmp", onDisk := true },
            metadata := some m }).2 with _ | e
      · rw [hr] at h
        exact (Except.ok.inj h).symm
      · rw [hr] at h
        cases h

/-- C9: extraction fails with `ValidationError` when `metadata.json` is
absent from the archive; on success it returns the workspace, which is
the package's freshly created temp directory, with the package's
metadata populated from the archive manifest. -/
theorem extract_contract (arch : Archive) (p : Package) :
    (arch.metadata = none →
      (Package.extract arch p).2
        = .error (.validationError "metadata.json not found in package"))
    ∧ (∀ ws : TempDir, (Package.extract arch p).2 = .ok ws →
        ws = { name := "apginstall-tmp", onDisk := true }
        ∧ (Package.extract arch p).1.temp_dir = some ws
        ∧ (Package.extract arch p).1.metadata = arch.metadata
        ∧ arch.metadata ≠ none) := by
  constructor
  · intro hm
    simp [Package.extract, hm]
  · intro ws hws
    have hws' := extract_ok_ws arch p ws hws
    cases hm : arch.metadata with
    | none =>
      exfalso
      simp [Package.extract, hm] at hws
    | some m =>
      refine ⟨hws', ?_, ?_, by simp⟩
      · rw [hws']
        exact extract_temp_dir arch p
      · rw [extract_metadata arch p m hm]

/-- `demoArch` with its metadata manifest removed. -/
def noMetaArch : Archive :=
  { pathName := "demo-1.0.apg", metadata := none,
    md5sumsLines := none, files := [], dataFiles := none,
    preinstall := none, postinstall := none, deployFault := none }

/-- Witness for C9: extraction of an archive without `metadata.json`
raises `ValidationError`. -/
theorem extract_contract_witness :
    (Package.extract noMetaArch (initPkg noMetaArch)).2
      = .error (.validationError "metadata.json not found in package") :=
  (extract_contract noMetaArch (initPkg noMetaArch)).1 rfl

/-! ## C10: malformed md5sums lines -/

lemma loadMd5_bad : ∀ (lines : List String) (p : Package),
    (∃ l ∈ lines, splitHashPath l = none) →
    ∃ msg, (loadMd5 lines p).2 = some (.valueError msg) := by
  intro lines
  induction lines with
  | nil =>
    rintro p ⟨l, hl, _⟩
    cases hl
  | cons line rest ih =>
    rintro p ⟨l, hl, hbad⟩
    simp only [loadMd5]
    cases hs : splitHashPath line with
    | none => exact ⟨_, rfl⟩
    | some hp =>
      rcases List.mem_cons.1 hl with rfl | hmem
      · rw [hs] at hbad
        cases hbad
      · exact ih { p with md5sums := insertAssoc hp.2 hp.1 p.md5sums } ⟨l, hmem, hbad⟩

lemma extract_bad_line (arch : Archive) (p : Package) (m : Metadata) (lines : List String)
    (hm : arch.metadata = some m) (hl : arch.md5sumsLines = some lines)
    (hbad : ∃ l ∈ lines, splitHashPath l = none) :
    ∃ msg, (Package.extract arch p).2 = .error (.valueError msg) := by
  obtain ⟨msg, hmsg⟩ := loadMd5_bad lines
    { p with
      temp_dir := some { name := "apginstall-tmp", onDisk := true },
      metadata := some m } hbad
  refine ⟨msg, ?_⟩
  simp [Package.extract, hm, hl, hmsg]

/-- C10 (amended): when the metadata manifest is present and the
`md5sums` file has a line without the two-space separator, extraction
raises the bare built-in `ValueError` (no error of the installer's own
taxonomy), the per-package boundary still catches it, counts it as that
package's failure, and the batch reports one failed package. -/
lemma install_result_of_extract_err (md5 : String → String) (ts : String) (osEnv : Env)
    (root : FileMap) (arch : Archive) (e : PyError)
    (h : (Package.extract arch (initPkg arch)).2 = .error e) :
    (install_package md5 ts osEnv root arch).result = .error e := by
  rcases hE : Package.extract arch (initPkg arch) with ⟨p1, res⟩
  rw [hE] at h
  simp only at h
  subst h
  simp only [install_package, hE, failOutcome]

theorem md5_bad_line_raises_valueerror (md5 : String → String) (ts : String) (osEnv : Env)
    (root : FileMap) (arch : Archive) (m : Metadata) (lines : List String)
    (hm : arch.metadata = some m) (hl : arch.md5sumsLines = some lines)
    (hbad : ∃ l ∈ lines, splitHashPath l = none) :
    (∃ msg, (Package.extract arch (initPkg arch)).2 = .error (.valueError msg))
    ∧ (∃ msg, (install_package md5 ts osEnv root arch).result = .error (.valueError msg))
    ∧ (InstallerThread.run md5 ts osEnv root [arch]).errorLog.length = 1
    ∧ Event.failed ("Failed to install " ++ (toString (1 : Nat) ++ " package(s)"))
        ∈ (InstallerThread.run md5 ts osEnv root [arch]).events := by
  obtain ⟨msg, hmsg⟩ := extract_bad_line arch (initPkg arch) m lines hm hl hbad
  have hres : (install_package md5 ts osEnv root arch).result
      = .error (.valueError msg) :=
    install_result_of_extract_err md5 ts osEnv root arch _ hmsg
  have h1 : ([arch] : List Archive).length = 1 := rfl
  have hloop : runLoop md5 ts osEnv 1 1 (initState root) [arch]
      = runStep md5 ts osEnv 1 1 (initState root) arch := rfl
  have hstep := runStep_errorLog_err md5 ts osEnv 1 1 (initState root) arch _ hres
  have hsucc := runStep_success_err md5 ts osEnv 1 1 (initState root) arch _ hres
  have hs0 : (runStep md5 ts osEnv 1 1 (initState root) arch).success = 0 := by
    rw [hsucc]
    rfl
  have hne : ¬ (runStep md5 ts osEnv 1 1 (initState root) arch).success = 1 := by
    rw [hs0]
    omega
  have hrun : InstallerThread.run md5 ts osEnv root [arch]
      = { runStep md5 ts osEnv 1 1 (initState root) arch with
          events := (runStep md5 ts osEnv 1 1 (initState root) arch).events ++
            [Event.failed ("Failed to install "
              ++ (toString (1 - (runStep md5 ts osEnv 1 1 (initState root) arch).success)
                ++ " package(s)"))] } := by
    simp only [InstallerThread.run, h1, hloop, if_neg hne]
  refine ⟨⟨msg, hmsg⟩, ⟨msg, hres⟩, ?_, ?_⟩
  · rw [hrun]
    show (runStep md5 ts osEnv 1 1 (initState root) arch).errorLog.length = 1
    rw [hstep]
    rfl
  · rw [hrun]
    show Event.failed ("Failed to install " ++ (toString (1 : Nat) ++ " package(s)"))
      ∈ (runStep md5 ts osEnv 1 1 (initState root) arch).events ++ _
    refine List.mem_append.2 (Or.inr ?_)
    rw [hs0]
    exact List.mem_singleton.2 rfl

/-- `demoArch` with a blank `md5sums` line (no two-space separator). -/
def badLineArch : Archive :=
  { pathName := "demo-1.0.apg",
    metadata := some { name := "demo", version := "1.0", dependencies := none },
    md5sumsLines := some [""], files := [], dataFiles := none,
    preinstall := none, postinstall := none, deployFault := none }

/-- `badLineArch` with the metadata manifest also missing. -/
def noMetaBadLineArch : Archive :=
  { pathName := "demo-1.0.apg", metadata := none,
    md5sumsLines := some [""], files := [], dataFiles := none,
    preinstall := none, postinstall := none, deployFault := none }

/-- Does extraction raise the built-in `ValueError`? -/
def raisesValueError : Except PyError TempDir → Bool
  | .error (.valueError _) => true
  | _ => false

/-- C10 counterexample: an archive whose `md5sums` holds a blank line
but whose `metadata.json` is missing raises `ValidationError`, not the
claimed bare `ValueError` (the metadata check precedes md5sums
parsing), so the claim is false as stated for that archive. -/
theorem md5_bad_line_counterexample :
    noMetaBadLineArch.md5sumsLines = some [""]
    ∧ splitHashPath "" = none
    ∧ raisesValueError (Package.extract noMetaBadLineArch (initPkg noMetaBadLineArch)).2 = false
    ∧ (Package.extract noMetaBadLineArch (initPkg noMetaBadLineArch)).2
        = .error (.validationError "metadata.json not found in package") := by
  refine ⟨rfl, by decide, by decide, by decide⟩

/-- Witness for C10 at the concrete archive `badLineArch`. -/
theorem md5_bad_line_raises_valueerror_witness :
    ∃ msg, (Package.extract badLineArch (initPkg badLineArch)).2
      = .error (.valueError msg) :=
  (md5_bad_line_raises_valueerror (fun _ => "H") "20250121_132110" [] [] badLineArch
    { name := "demo", version := "1.0", dependencies := none } [""]
    rfl rfl ⟨"", by decide, by decide⟩).1

end ApgInstall
